import Mathlib

/-!
Shallow embedding of `dockmon_cli.py`: the Host/Container data model, the
version-inference chain, the filter predicate, the human-relative-time
formatter, the update-status merge, selective update reconciliation
(`get_container_status`), and the mutating-action dispatchers.

Python values that may be `None` are modelled as `Option`; Python dicts
coming from JSON are modelled as association lists (insertion order =
iteration order); a Python expression that may raise an uncaught exception
is modelled as an `Option`-returning function where `none` means "raises".
`datetime` instants are modelled as integer seconds; `datetime.fromisoformat`
(a stdlib collaborator, not repository code) is an abstract parameter
`fromiso : String → Option Int` (`none` = `ValueError`), and `datetime.now()`
is an explicit parameter `now : Int`.
-/

namespace DockmonCLI

/-- Python truthiness of a string-or-None value: `None` and `""` are falsy. -/
def truthy : Option String → Bool
  | none => false
  | some s => !s.isEmpty

/-- Python f-string rendering of a possibly-`None` string (f"{None}" = "None"). -/
def optStr : Option String → String
  | none => "None"
  | some s => s

/-- Python `needle in hay` on strings: substring containment. -/
def substrB (needle hay : String) : Bool := decide (needle.data <:+: hay.data)

/-- Python `d.get(k)` on a string-valued dict modelled as an assoc list. -/
def dget (d : List (String × String)) (k : String) : Option String :=
  (d.find? (fun p => p.1 == k)).map (·.2)

/-- Python `s.replace(pat, rep)` (all non-overlapping occurrences, left to
right) on character lists, with a fuel argument bounding the number of
consumed characters so the recursion is structural; the patterns used by
the code are non-empty, and the caller passes the input's length as fuel,
which is always sufficient. -/
def replaceChars (pat rep : List Char) : Nat → List Char → List Char
  | 0, s => s
  | _ + 1, [] => []
  | fuel + 1, c :: rest =>
    if pat ≠ [] ∧ pat.isPrefixOf (c :: rest) then
      rep ++ replaceChars pat rep fuel ((c :: rest).drop pat.length)
    else
      c :: replaceChars pat rep fuel rest

/-- Python `s.replace(pat, rep)` on strings. -/
def pyReplace (s pat rep : String) : String :=
  String.mk (replaceChars pat.data rep.data s.data.length s.data)

/-- Python `s.split(".")` (single-character separator, no maxsplit) on
character lists. -/
def splitDotChars : List Char → List (List Char)
  | [] => [[]]
  | c :: rest =>
    if c = '.' then [] :: splitDotChars rest
    else
      match splitDotChars rest with
      | [] => [[c]]
      | h :: t => (c :: h) :: t

/-- Python `s.split(".")` on strings. -/
def splitDot (s : String) : List String :=
  (splitDotChars s.data).map String.mk

/-- Python `s.rstrip("Z")`: strip all trailing `Z` characters. -/
def rstripZ (s : String) : String :=
  String.mk ((s.data.reverse.dropWhile (· == 'Z')).reverse)

/-- Model of `image.split(":", 1)[0]`: the part before the first colon. -/
def beforeFirstColon (s : String) : String :=
  String.mk (s.data.takeWhile (· ≠ ':'))

/-- Model of `image.split(":", 1)[1]`: the part after the first colon; `none` models the
`IndexError` raised when the image reference contains no colon. -/
def afterFirstColon (s : String) : Option String :=
  if ':' ∈ s.data then some (String.mk ((s.data.dropWhile (· ≠ ':')).drop 1))
  else none

/-- Model of `x.split("/")[-1]`: the part after the last slash. -/
def afterLastSlash (s : String) : String :=
  String.mk ((s.data.reverse.takeWhile (· ≠ '/')).reverse)

/-! ## Time formatting (`Container.human_time_diff` and its future helper) -/

/-- Model of `Container.human_time_diff_future`, for a non-negative number of seconds;
`minutes = seconds // 60`, `hours = minutes // 60`, `days = hours // 24`,
`weeks = days // 7`, `months = days // 30`, `years = days // 365`, written
out as the chained floor divisions the code performs. -/
def human_time_diff_future (s : Nat) : String :=
  if s < 60 then s!"in {s} seconds"
  else if s / 60 < 60 then
    if s / 60 = 1 then "in 1 minute" else s!"in {s / 60} minutes"
  else if s / 60 / 60 < 24 then
    if s / 60 / 60 = 1 then "in 1 hour" else s!"in {s / 60 / 60} hours"
  else if s / 60 / 60 / 24 < 7 then
    if s / 60 / 60 / 24 = 1 then "tomorrow" else s!"in {s / 60 / 60 / 24} days"
  else if s / 60 / 60 / 24 / 7 < 5 then
    if s / 60 / 60 / 24 / 7 = 1 then "in 1 week"
    else s!"in {s / 60 / 60 / 24 / 7} weeks"
  else if s / 60 / 60 / 24 / 30 < 12 then
    if s / 60 / 60 / 24 / 30 = 1 then "in 1 month"
    else s!"in {s / 60 / 60 / 24 / 30} months"
  else
    if s / 60 / 60 / 24 / 365 = 1 then "in 1 year"
    else s!"in {s / 60 / 60 / 24 / 365} years"

/-- The non-negative branch of `Container.human_time_diff`, with the same
chained floor divisions. -/
def human_time_diff_past (s : Nat) : String :=
  if s < 60 then s!"for {s} seconds"
  else if s / 60 < 60 then
    if s / 60 = 1 then "for 1 minute" else s!"for {s / 60} minutes"
  else if s / 60 / 60 < 24 then
    if s / 60 / 60 = 1 then "for 1 hour" else s!"for {s / 60 / 60} hours"
  else if s / 60 / 60 / 24 = 1 then "since yesterday"
  else if s / 60 / 60 / 24 < 7 then s!"for {s / 60 / 60 / 24} days"
  else if s / 60 / 60 / 24 / 7 < 5 then
    if s / 60 / 60 / 24 / 7 = 1 then "for 1 week"
    else s!"for {s / 60 / 60 / 24 / 7} weeks"
  else if s / 60 / 60 / 24 / 30 < 12 then
    if s / 60 / 60 / 24 / 30 = 1 then "for 1 month"
    else s!"for {s / 60 / 60 / 24 / 30} months"
  else
    if s / 60 / 60 / 24 / 365 = 1 then "for 1 year"
    else s!"for {s / 60 / 60 / 24 / 365} years"

/-- Model of `Container.human_time_diff(past, now)`: `seconds = int((now - past).total_seconds())`;
a negative delta delegates to the future formatter on `-seconds`. -/
def human_time_diff (past now : Int) : String :=
  let seconds : Int := now - past
  if seconds < 0 then human_time_diff_future (-seconds).toNat
  else human_time_diff_past seconds.toNat

/-! ## Raw records and timestamp parsing -/

/-- A raw container record from `GET containers`. Dict values that may be
JSON `null` (or whose key the service may omit where the code uses `.get`)
are `Option`; `env` and `labels` are whole dicts, `Option` because the code
reaches them with `container['env']` / `container.get('labels').get(...)`,
which raise when the dict is absent. -/
structure RawContainer where
  id : Option String := none
  name : Option String := none
  host_name : Option String := none
  host_id : Option String := none
  image : Option String := none
  state : Option String := none
  ports : Option String := none
  created : Option String := none
  started : Option String := none
  healthy : Option Bool := none
  labels : Option (List (String × String)) := none
  env : Option (List (String × String)) := none

/-- Model of `Container.parse_ns_iso8601`: strip trailing `Z`s, truncate a fractional
part to 6 digits (unpacking raises `ValueError` when there is more than one
dot), then `datetime.fromisoformat`; any `ValueError`/`AttributeError`
(including a `None` input) falls back to `datetime.now()` = `now`. -/
def parse_ns_iso8601 (fromiso : String → Option Int) (now : Int)
    (s : Option String) : Int :=
  match s with
  | none => now
  | some s0 =>
    let s1 := rstripZ s0
    if '.' ∈ s1.data then
      match splitDot s1 with
      | [ts, frac] =>
        match fromiso (ts ++ "." ++ String.mk (frac.data.take 6)) with
        | some t => t
        | none => now
      | _ => now
    else
      match fromiso s1 with
      | some t => t
      | none => now

/-! ## Version inference (`Container._get_version`) -/

def version_env_strings : List String := ["PG_VERSION", "REDIS_VERSION", "INFLUXDB_VERSION"]

/-- One `for env in container['env']` loop: every entry whose key is in
`keys` overwrites `version`, so the last matching entry wins. -/
def envScan (env : List (String × String)) (keys : List String)
    (v : Option String) : Option String :=
  env.foldl (fun v p => if p.1 ∈ keys then some p.2 else v) v

/-- One `if not version:` block of `_get_version`: when `version` is falsy
and the block's guard holds, iterate over `container['env']` (raising —
`none` — when the `env` dict is absent). -/
def versionStep (envOpt : Option (List (String × String))) (cond : Bool)
    (keys : List String) (v : Option String) : Option (Option String) :=
  if truthy v then some v
  else if cond then
    match envOpt with
    | none => none
    | some env => some (envScan env keys v)
  else some v

/-- Model of `Container._get_version`: the OCI label, then the well-known database env
variables, then the base-name-specific env variable. `none` models an
uncaught exception (missing `labels`, missing image, image without a colon,
or a reached `container['env']` access on a missing dict); `some v` is the
returned value, itself possibly `None`/empty. -/
def get_version (cont : RawContainer) : Option (Option String) :=
  cont.labels.bind fun labels =>
  cont.image.bind fun image =>
  (afterFirstColon image).bind fun _image_version =>
  (versionStep cont.env true version_env_strings
      (dget labels "org.opencontainers.image.version")).bind fun v1 =>
  (versionStep cont.env (afterLastSlash (beforeFirstColon image) == "php")
      ["PHP_VERSION"] v1).bind fun v2 =>
  (versionStep cont.env (afterLastSlash (beforeFirstColon image) == "nginx")
      ["NGINX_VERSION"] v2).bind fun v3 =>
  versionStep cont.env (afterLastSlash (beforeFirstColon image) == "python")
      ["PYTHON_VERSION"] v3

/-! ## The Container entity -/

/-- The `_update_status` dict as stored on a Container. `current_version` is
`none` when the key is absent (the constructor default) and `some v` when
present with value `v` (itself possibly `None`). After a merge,
`last_checked_at` holds a parsed instant. -/
structure StoredStatus where
  update_available : Bool
  current_version : Option (Option String) := none
  latest_version : Option (Option String) := none
  last_checked_at : Option Int := none
  last_checked : Option String := none
deriving Repr, DecidableEq

/-- The constructor default `{ 'update_available': False }`. -/
def defaultStatus : StoredStatus := { update_available := false }

structure Container where
  id : Option String
  name : Option String
  host_name : Option String
  host_id : Option String
  image : Option String
  state : Option String
  ports : String
  container_id : String
  created : Int
  started : Int
  healthy : Option Bool
  update_status : StoredStatus
  version_raw : Option String
deriving Repr, DecidableEq

/-- Model of `Container.__init__`: `none` models an uncaught exception (only
`_get_version` can raise). `started` is parsed from the record's `created`
value, exactly as the code does on line 231. -/
def Container.init (fromiso : String → Option Int) (now : Int)
    (cont : RawContainer) : Option Container :=
  match get_version cont with
  | none => none
  | some v => some {
      id := cont.id
      name := cont.name
      host_name := cont.host_name
      host_id := cont.host_id
      image := cont.image
      state := cont.state
      ports := cont.ports.getD ""
      container_id := optStr cont.host_id ++ ":" ++ optStr cont.id
      created := parse_ns_iso8601 fromiso now cont.created
      started := parse_ns_iso8601 fromiso now cont.created
      healthy := cont.healthy
      update_status := defaultStatus
      version_raw := v }

/-- The `Container.version` property: `self._version or "N/A"`. -/
def Container.version (c : Container) : String :=
  match c.version_raw with
  | none => "N/A"
  | some s => if s.isEmpty then "N/A" else s

/-- The `Container.update_available` property. -/
def Container.update_available (c : Container) : Bool :=
  c.update_status.update_available

/-! ## The update-status merge (the `Container.update_status` setter) -/

/-- A detailed status payload from `GET .../update-status`. `current_version`
is `none` when the key is absent — the setter reads it with
`self._update_status['current_version']`, which raises `KeyError` in that
case — and `some v` when present with (possibly `null`) value `v`.
`last_checked_at` is read with `.get`, so absence is just `none`. -/
structure RawStatus where
  update_available : Bool := false
  current_version : Option (Option String) := none
  latest_version : Option (Option String) := none
  last_checked_at : Option String := none
deriving Repr, DecidableEq

/-- The `Container.update_status` setter: store the payload, backfill
`current_version` from the locally derived `_version` when the stored value
is falsy and `_version` is truthy, and when `last_checked_at` is truthy
parse it and derive `last_checked`. `none` models the `KeyError` on a
payload with no `current_version` entry. -/
def Container.setUpdateStatus (fromiso : String → Option Int) (now : Int)
    (c : Container) (p : RawStatus) : Option Container :=
  match p.current_version with
  | none => none
  | some cv =>
    let cv' := if !truthy cv && truthy c.version_raw then c.version_raw else cv
    let st : StoredStatus :=
      if truthy p.last_checked_at then
        let t := parse_ns_iso8601 fromiso now p.last_checked_at
        { update_available := p.update_available
          current_version := some cv'
          latest_version := p.latest_version
          last_checked_at := some t
          last_checked := some (pyReplace (pyReplace (human_time_diff t now)
            "since" "") "for " "" ++ " ago") }
      else
        { update_available := p.update_available
          current_version := some cv'
          latest_version := p.latest_version
          last_checked_at := none
          last_checked := none }
    some { c with update_status := st }

/-! ## The filter predicate (`_container_match`) -/

def partial_names : List String := ["www", "php", "librenms"]

/-- Model of `_container_match(container, name_match, image_match)`, applied to the
container's `name` and `image` fields. The Python body is an
`if`/`elif` chain whose fall-through returns `False`. -/
def container_match (cName cImage : String)
    (name_match image_match : Option String) : Bool :=
  if !truthy name_match && !truthy image_match then
    true
  else if truthy name_match && truthy image_match then
    let nm := name_match.getD ""
    let im := image_match.getD ""
    substrB im cImage
      && (nm == cName || (partial_names.contains nm && substrB nm cName))
  else if truthy name_match then
    let nm := name_match.getD ""
    nm == cName || (partial_names.contains nm && substrB nm cName)
  else
    substrB (image_match.getD "") cImage

/-! ## Update reconciliation (`get_container_status`) -/

structure RawHost where
  id : Option String := none
  name : Option String := none

structure Args where
  host : Option String := none
  container : Option String := none
  image : Option String := none
  updates_only : Bool := false

/-- The `GET updates/summary` response; the code reads
`updates.get('containers_with_updates', [])`. -/
structure Summary where
  containers_with_updates : Option (List String) := none

/-- The keys of the `hosts` dict built by `get_container_status`:
one entry per host record passing `not args.host or host['name'] == args.host`. -/
def hostKeys (hostsData : List RawHost) (args : Args) : List (Option String) :=
  (hostsData.filter (fun h => !truthy args.host || h.name == args.host)).map (·.id)

/-- The container's name/image as fed to `_container_match`; a `None` field
is rendered as the empty string. -/
def matchedHere (keys : List (Option String)) (args : Args) (c : Container) : Bool :=
  keys.contains c.host_id
    && container_match (c.name.getD "") (c.image.getD "") args.container args.image

/-- The body of the `for c in data` loop of `get_container_status`, with
`detail` standing for the `GET hosts/{host_id}/containers/{id}/update-status`
call. Returns the containers added to hosts (flat, in iteration order) and
the log of composite ids for which a detail fetch was issued; `none` models
an uncaught exception from construction or the status merge. -/
def gcs_loop (fromiso : String → Option Int) (now : Int)
    (detail : Option String → Option String → RawStatus)
    (keys : List (Option String)) (args : Args) (upd : List String) :
    List RawContainer → Option (List Container × List String)
  | [] => some ([], [])
  | r :: rs =>
    (Container.init fromiso now r).bind fun c =>
    if matchedHere keys args c then
      if upd.contains c.container_id then
        (c.setUpdateStatus fromiso now (detail c.host_id c.id)).bind fun c' =>
        (gcs_loop fromiso now detail keys args upd rs).bind fun pr =>
        if args.updates_only && !c'.update_available then
          some (pr.1, c.container_id :: pr.2)
        else
          some (c' :: pr.1, c.container_id :: pr.2)
      else
        if args.updates_only && !c.update_available then
          gcs_loop fromiso now detail keys args upd rs
        else
          (gcs_loop fromiso now detail keys args upd rs).bind fun pr =>
          some (c :: pr.1, pr.2)
    else
      gcs_loop fromiso now detail keys args upd rs

/-- Model of `get_container_status(client, args)`: build the host-key set, read the
update summary, and run the container loop. -/
def get_container_status (fromiso : String → Option Int) (now : Int)
    (hostsData : List RawHost) (summary : Summary)
    (containersData : List RawContainer)
    (detail : Option String → Option String → RawStatus)
    (args : Args) : Option (List Container × List String) :=
  gcs_loop fromiso now detail (hostKeys hostsData args) args
    (summary.containers_with_updates.getD []) containersData

/-- The already-filtered working set: every record constructed (as the code
does for every record of `GET containers`), keeping those whose host is in
the hosts dict and which pass the filter. -/
def workingSet (fromiso : String → Option Int) (now : Int)
    (keys : List (Option String)) (args : Args) :
    List RawContainer → Option (List Container)
  | [] => some []
  | r :: rs =>
    (Container.init fromiso now r).bind fun c =>
    (workingSet fromiso now keys args rs).bind fun cs =>
    some (if matchedHere keys args c then c :: cs else cs)

/-! ## Mutating actions -/

/-- The decoded outcome of the `execute-update` POST: a 2xx body with
`status`/`message`, or an `HTTPError` whose decoded body has `detail`. -/
inductive HTTPResp where
  | ok (status message : String)
  | err (detail : String)
deriving Repr, DecidableEq

/-- Model of `execute_update(client, host_id, container_id, quiet)` given the
response to its POST: the lines it prints and the value it returns. -/
def execute_update (resp : HTTPResp) (quiet : Bool) : List String × HTTPResp :=
  match resp with
  | .err detail =>
    if detail == "No update available for this container" then
      ((if quiet then [] else [s!"✅ {detail}"]), resp)
    else
      ((if quiet then [] else [s!"❌ HTTP exception: {detail}"]), resp)
  | .ok status message =>
    if status == "success" then
      ((if quiet then [] else [s!"✅ {message}"]), resp)
    else
      ((if quiet then [] else [s!"❌ {message}"]), resp)

/-- The `--update` / `--restart` dispatch loop of `main` over the flattened
`(host, container)` sequence: per pair, run the mutating call (`exec`, which
itself renders in interactive mode), and in JSON mode print the first result
and `sys.exit()`. Returns (pairs the mutating call was issued for, results
printed at the `main` level, whether the process exited early). -/
def dispatch_loop {α : Type} (exec : Option String × Option String → α)
    (jsonMode : Bool) :
    List (Option String × Option String) →
    List (Option String × Option String) × List α × Bool
  | [] => ([], [], false)
  | p :: ps =>
    if jsonMode then
      ([p], [exec p], true)
    else
      let rest := dispatch_loop exec jsonMode ps
      (p :: rest.1, rest.2.1, rest.2.2)

/-! ## Spec-side models, for the refinement claims

These definitions follow the specification's wording (the bucket table of
§4.4 with thresholds on the elapsed seconds, and the §4.2 resolution chain
as independent *first non-empty wins* steps) and are compared against the
code-derived definitions above. -/

/-- Spec table §4.4, past direction: buckets by elapsed seconds with fixed
7/30/365-day divisors. -/
def spec_humanize_past (s : Nat) : String :=
  if s < 60 then s!"for {s} seconds"
  else if s < 3600 then
    if s / 60 = 1 then "for 1 minute" else s!"for {s / 60} minutes"
  else if s < 86400 then
    if s / 3600 = 1 then "for 1 hour" else s!"for {s / 3600} hours"
  else if s / 86400 = 1 then "since yesterday"
  else if s / 86400 < 7 then s!"for {s / 86400} days"
  else if s / 604800 < 5 then
    if s / 604800 = 1 then "for 1 week" else s!"for {s / 604800} weeks"
  else if s / 2592000 < 12 then
    if s / 2592000 = 1 then "for 1 month" else s!"for {s / 2592000} months"
  else
    if s / 31536000 = 1 then "for 1 year" else s!"for {s / 31536000} years"

/-- Spec table §4.4 mirrored with `in N <unit>` phrasing, except the 1-day
bucket which becomes `tomorrow`. -/
def spec_humanize_future (s : Nat) : String :=
  if s < 60 then s!"in {s} seconds"
  else if s < 3600 then
    if s / 60 = 1 then "in 1 minute" else s!"in {s / 60} minutes"
  else if s < 86400 then
    if s / 3600 = 1 then "in 1 hour" else s!"in {s / 3600} hours"
  else if s / 86400 = 1 then "tomorrow"
  else if s / 86400 < 7 then s!"in {s / 86400} days"
  else if s / 604800 < 5 then
    if s / 604800 = 1 then "in 1 week" else s!"in {s / 604800} weeks"
  else if s / 2592000 < 12 then
    if s / 2592000 = 1 then "in 1 month" else s!"in {s / 2592000} months"
  else
    if s / 31536000 = 1 then "in 1 year" else s!"in {s / 31536000} years"

/-- The whole §4.4 contract on a signed delta `now - past`. -/
def spec_humanize (delta : Int) : String :=
  if delta < 0 then spec_humanize_future (-delta).toNat
  else spec_humanize_past delta.toNat

/-- First truthy (non-`None`, non-empty) candidate of a chain. -/
def firstTruthy : List (Option String) → Option String
  | [] => none
  | v :: vs => if truthy v then v else firstTruthy vs

/-- Chain step 1: the OCI image-version label. -/
def labelVersion (cont : RawContainer) : Option String :=
  dget (cont.labels.getD []) "org.opencontainers.image.version"

/-- Chain step 2: the well-known database/cache version env variables. -/
def dbEnvVersion (cont : RawContainer) : Option String :=
  envScan (cont.env.getD []) version_env_strings none

/-- Chain step 3: the env variable keyed by the image's base name. -/
def imageSpecificVersion (cont : RawContainer) : Option String :=
  if afterLastSlash (beforeFirstColon (cont.image.getD "")) = "php" then
    envScan (cont.env.getD []) ["PHP_VERSION"] none
  else if afterLastSlash (beforeFirstColon (cont.image.getD "")) = "nginx" then
    envScan (cont.env.getD []) ["NGINX_VERSION"] none
  else if afterLastSlash (beforeFirstColon (cont.image.getD "")) = "python" then
    envScan (cont.env.getD []) ["PYTHON_VERSION"] none
  else none

/-- The §4.2 resolution chain: first non-empty value wins, else `"N/A"`. -/
def specVersion (cont : RawContainer) : String :=
  (firstTruthy
    [labelVersion cont, dbEnvVersion cont, imageSpecificVersion cont]).getD "N/A"

/-- The name rule of §4.1: exact equality, or an allow-listed name occurring
as a substring. -/
def NameRule (n cName : String) : Prop :=
  n = cName ∨ (n ∈ partial_names ∧ n.data <:+: cName.data)

/-- Spec §4.1 as a proposition over the four filter configurations. -/
def MatchSpec (cName cImage : String) (nf imf : Option String) : Prop :=
  (truthy nf = false ∧ truthy imf = false)
  ∨ (truthy nf = true ∧ truthy imf = true
      ∧ (imf.getD "").data <:+: cImage.data ∧ NameRule (nf.getD "") cName)
  ∨ (truthy nf = true ∧ truthy imf = false ∧ NameRule (nf.getD "") cName)
  ∨ (truthy nf = false ∧ truthy imf = true
      ∧ (imf.getD "").data <:+: cImage.data)

/-! ## Theorems -/

/-- C2: `_container_match` returns true for every container when neither
filter is set; with both set it requires the image substring rule AND the
name rule (exact equality, or an allow-listed partial name as a substring);
with one filter set the corresponding rule applies alone; and
`name_filter = "www1"` matches exactly the container named `"www1"` and no
other, since `"www1"` is not in the allow-list. -/
theorem c2_filter_predicate :
    (∀ (cName cImage : String) (nf imf : Option String),
      container_match cName cImage nf imf = true ↔ MatchSpec cName cImage nf imf)
    ∧ (∀ cName cImage : String,
      container_match cName cImage (some "www1") none = true ↔ cName = "www1") := by
  constructor
  · intro cName cImage nf imf
    unfold container_match MatchSpec NameRule substrB
    cases hn : truthy nf <;> cases hi : truthy imf <;> simp [hn, hi]
  · intro cName cImage
    unfold container_match
    simp [truthy, substrB, partial_names, show "www1".isEmpty = false from rfl]
    exact eq_comm

/-- C7 counterexample: in structured-output mode with zero matched
containers, the dispatcher prints zero results, not exactly one — the
"exactly one result is printed, regardless of how many containers matched"
part of the claim fails on the empty working set. -/
theorem c7_counterexample :
    dispatch_loop (fun _ => ()) true ([] : List (Option String × Option String))
      = ([], [], false)
    ∧ (dispatch_loop (fun _ => ()) true
        ([] : List (Option String × Option String))).2.1.length ≠ 1 := by
  exact ⟨rfl, by decide⟩

/-- C7 amended: in structured-output mode the dispatcher issues the mutating
call only for the first matched container, prints exactly that one result
and terminates the process — whenever at least one container matched; with
zero matched containers nothing is called or printed and the process does
not exit early. In interactive mode every matched container is processed
sequentially with no early exit. -/
theorem c7_dispatch_short_circuit :
    ∀ (α : Type) (exec : Option String × Option String → α)
      (p : Option String × Option String)
      (ps : List (Option String × Option String)),
      dispatch_loop exec true (p :: ps) = ([p], [exec p], true)
      ∧ dispatch_loop exec true [] = ([], [], false)
      ∧ (dispatch_loop exec false ps).1 = ps
      ∧ (dispatch_loop exec false ps).2.2 = false := by
  intro α exec p ps
  refine ⟨rfl, rfl, ?_, ?_⟩ <;>
    · induction ps with
      | nil => rfl
      | cons q qs ih => simp [dispatch_loop, ih]

/-- C8: the `execute-update` client classifies the HTTP-error detail
`'No update available for this container'` as benign (success glyph, error
body returned, no abort), renders every other HTTP-error detail with the
error glyph, and renders a successful response according to its `status`
field. -/
theorem c8_execute_update_classification :
    ∀ (detail status message : String),
      (execute_update (.err "No update available for this container") false
        = (["✅ No update available for this container"],
           .err "No update available for this container"))
      ∧ (detail ≠ "No update available for this container" →
          execute_update (.err detail) false
            = ([s!"❌ HTTP exception: {detail}"], .err detail))
      ∧ (execute_update (.ok "success" message) false
          = ([s!"✅ {message}"], .ok "success" message))
      ∧ (status ≠ "success" →
          execute_update (.ok status message) false
            = ([s!"❌ {message}"], .ok status message)) := by
  intro detail status message
  refine ⟨rfl, ?_, rfl, ?_⟩ <;> intro h <;> simp [execute_update, h]

theorem c8_execute_update_classification_witness :
    execute_update (.err "boom") false = (["❌ HTTP exception: boom"], .err "boom")
    ∧ execute_update (.ok "error" "m") false = (["❌ m"], .ok "error" "m") :=
  ⟨(c8_execute_update_classification "boom" "error" "m").2.1 (by decide),
   (c8_execute_update_classification "boom" "error" "m").2.2.2 (by decide)⟩

/-- C9: reconciliation is idempotent — constructing a Container from the
same raw payload (with the observation time held fixed) is deterministic,
and merging the same detailed status payload a second time reproduces the
very same Container, with no accumulation in `last_checked`,
`last_checked_at` or any other `update_status` field. -/
theorem c9_reconcile_idempotent :
    ∀ (fromiso : String → Option Int) (now : Int) (r : RawContainer)
      (c c' : Container) (p : RawStatus),
      Container.init fromiso now r = Container.init fromiso now r
      ∧ (Container.setUpdateStatus fromiso now c p = some c' →
          Container.setUpdateStatus fromiso now c' p = some c') := by
  intro fromiso now r c c' p
  refine ⟨rfl, ?_⟩
  intro h
  unfold Container.setUpdateStatus at h ⊢
  cases hcv : p.current_version with
  | none => simp only [hcv] at h; exact Option.noConfusion h
  | some cv =>
    simp only [hcv] at h ⊢
    injection h with h
    subst h
    rfl

def c9container : Container :=
  { id := some "c1", name := some "web", host_name := none,
    host_id := some "h1", image := some "nginx:1.2", state := some "running",
    ports := "", container_id := "h1:c1", created := 0, started := 0,
    healthy := none, update_status := defaultStatus,
    version_raw := some "1.2" }

def c9payload : RawStatus :=
  { update_available := true, current_version := some none,
    latest_version := some (some "2.0"),
    last_checked_at := some "2023-01-05T00:00:00Z" }

def c9fromiso : String → Option Int := fun s =>
  if s = "2023-01-05T00:00:00" then some 1000 else none

def c9merged : Container :=
  (Container.setUpdateStatus c9fromiso 5000 c9container c9payload).getD c9container

theorem c9_reconcile_idempotent_witness :
    Container.setUpdateStatus c9fromiso 5000 c9merged c9payload = some c9merged :=
  (c9_reconcile_idempotent c9fromiso 5000 {} c9container c9merged c9payload).2 rfl

/-- C10: Container construction is not total — a record whose `labels` dict
is absent, whose `image` is absent, or whose image reference contains no
`:` raises an uncaught exception from `_get_version` (modelled as `none`). -/
theorem c10_construction_not_total :
    ∀ (fromiso : String → Option Int) (now : Int) (r : RawContainer) (s : String),
      (r.labels = none → Container.init fromiso now r = none)
      ∧ (r.image = none → Container.init fromiso now r = none)
      ∧ (r.image = some s → ':' ∉ s.data → Container.init fromiso now r = none) := by
  intro fromiso now r s
  refine ⟨?_, ?_, ?_⟩
  · intro h
    unfold Container.init get_version
    rw [h]
    rfl
  · intro h
    unfold Container.init get_version
    rw [h]
    cases r.labels <;> rfl
  · intro h hc
    unfold Container.init get_version
    rw [h]
    cases r.labels with
    | none => rfl
    | some labels =>
      simp only [Option.some_bind, afterFirstColon, if_neg hc, Option.none_bind]

theorem c10_construction_not_total_witness :
    Container.init (fun _ => none) 0 { labels := some [], image := some "nginx" } = none
    ∧ Container.init (fun _ => none) 0 ({} : RawContainer) = none :=
  ⟨(c10_construction_not_total (fun _ => none) 0
      { labels := some [], image := some "nginx" } "nginx").2.2 rfl (by decide),
   (c10_construction_not_total (fun _ => none) 0 {} "").1 rfl⟩

def c5fromiso : String → Option Int := fun s =>
  if s = "2023-01-01T00:00:00" then some 100
  else if s = "2023-01-02T00:00:00" then some 200
  else none

def c5record : RawContainer :=
  { id := some "c1", name := some "db", host_id := some "h1",
    image := some "postgres:16", state := some "running",
    created := some "2023-01-01T00:00:00Z",
    started := some "2023-01-02T00:00:00Z",
    labels := some [], env := some [] }

/-- C5: the `created` field is parsed from the record's `created` timestamp,
but the `started` field is parsed from the record's `created` timestamp as
well (line 231 reads `cont.get('created')` twice), so a record whose two
timestamps differ gets `started = created`, contradicting the claim that
`started` is parsed from the record's started timestamp. -/
theorem c5_started_parsed_from_created :
    (Container.init c5fromiso 0 c5record).map (·.created) = some 100
    ∧ (Container.init c5fromiso 0 c5record).map (·.started) = some 100
    ∧ parse_ns_iso8601 c5fromiso 0 c5record.started = 200
    ∧ (100 : Int) ≠ 200 := by
  refine ⟨rfl, rfl, rfl, by decide⟩

def c6container : Container :=
  { id := some "c2", name := some "cache", host_name := none,
    host_id := some "h2", image := some "redis:7", state := some "running",
    ports := "", container_id := "h2:c2", created := 0, started := 0,
    healthy := none, update_status := defaultStatus,
    version_raw := some "7.0" }

/-- C6 counterexample: merging a detailed status record with no
`current_version` entry at all raises `KeyError` (modelled as `none`)
instead of backfilling, and a record that supplies `current_version` as the
empty string has that supplied value overridden by the locally derived
version — both contradicting the claim. -/
theorem c6_counterexample :
    Container.setUpdateStatus (fun _ => some 0) 0 c6container
      { update_available := true, current_version := none } = none
    ∧ (Container.setUpdateStatus (fun _ => some 0) 0 c6container
        { update_available := true, current_version := some (some "") }).map
          (fun c => c.update_status.current_version)
        = some (some (some "7.0")) := by
  refine ⟨rfl, rfl⟩

/-- C6 amended: for a detailed status record that contains the
`current_version` key, the merge backfills it from the locally derived
version exactly when the supplied value is null or empty and the local
version is non-empty (so a non-empty supplied value is never overridden),
and when `last_checked_at` is present and non-empty, it is reparsed and
`last_checked` is recomputed as the human-relative string derived from it.
A record with no `current_version` entry at all instead raises `KeyError`. -/
theorem c6_merge_backfill :
    ∀ (fromiso : String → Option Int) (now : Int) (c : Container)
      (p : RawStatus) (cv : Option String),
      p.current_version = some cv →
      ∃ c', Container.setUpdateStatus fromiso now c p = some c'
        ∧ c'.update_status.current_version
            = some (if truthy cv = false ∧ truthy c.version_raw = true
                    then c.version_raw else cv)
        ∧ (truthy cv = true → c'.update_status.current_version = some cv)
        ∧ (truthy p.last_checked_at = true →
            c'.update_status.last_checked_at
              = some (parse_ns_iso8601 fromiso now p.last_checked_at)
            ∧ c'.update_status.last_checked
              = some (pyReplace (pyReplace
                  (human_time_diff (parse_ns_iso8601 fromiso now p.last_checked_at) now)
                  "since" "") "for " "" ++ " ago")) := by
  intro fromiso now c p cv hcv
  have hif : (if (!truthy cv && truthy c.version_raw) = true then c.version_raw else cv)
      = (if truthy cv = false ∧ truthy c.version_raw = true then c.version_raw else cv) := by
    cases htc : truthy cv <;> cases htv : truthy c.version_raw <;> simp
  unfold Container.setUpdateStatus
  simp only [hcv]
  refine ⟨_, rfl, ?_, ?_, ?_⟩
  · by_cases hl : truthy p.last_checked_at = true <;>
      simp only [hl, if_true, if_false, Bool.false_eq_true] <;>
      exact congrArg some hif
  · intro ht
    by_cases hl : truthy p.last_checked_at = true <;> simp [hl, ht]
  · intro hl
    simp [hl]

theorem c6_merge_backfill_witness :
    ∃ c', Container.setUpdateStatus c9fromiso 5000 c6container c9payload = some c'
      ∧ c'.update_status.current_version
          = some (if truthy none = false ∧ truthy c6container.version_raw = true
                  then c6container.version_raw else none)
      ∧ (truthy none = true → c'.update_status.current_version = some none)
      ∧ (truthy c9payload.last_checked_at = true →
          c'.update_status.last_checked_at
            = some (parse_ns_iso8601 c9fromiso 5000 c9payload.last_checked_at)
          ∧ c'.update_status.last_checked
            = some (pyReplace (pyReplace
                (human_time_diff (parse_ns_iso8601 c9fromiso 5000 c9payload.last_checked_at) 5000)
                "since" "") "for " "" ++ " ago")) :=
  c6_merge_backfill c9fromiso 5000 c6container c9payload none rfl

theorem human_past_eq_spec (s : Nat) :
    human_time_diff_past s = spec_humanize_past s := by
  unfold human_time_diff_past spec_humanize_past
  have h1 : s / 60 / 60 = s / 3600 := by omega
  have h2 : s / 60 / 60 / 24 = s / 86400 := by omega
  have h3 : s / 60 / 60 / 24 / 7 = s / 604800 := by omega
  have h4 : s / 60 / 60 / 24 / 30 = s / 2592000 := by omega
  have h5 : s / 60 / 60 / 24 / 365 = s / 31536000 := by omega
  rw [h3, h4, h5, h2, h1]
  have c1 : (s / 60 < 60) ↔ (s < 3600) := by omega
  have c2 : (s / 3600 < 24) ↔ (s < 86400) := by omega
  simp only [c1, c2]

theorem human_future_eq_spec (s : Nat) :
    human_time_diff_future s = spec_humanize_future s := by
  unfold human_time_diff_future spec_humanize_future
  have h1 : s / 60 / 60 = s / 3600 := by omega
  have h2 : s / 60 / 60 / 24 = s / 86400 := by omega
  have h3 : s / 60 / 60 / 24 / 7 = s / 604800 := by omega
  have h4 : s / 60 / 60 / 24 / 30 = s / 2592000 := by omega
  have h5 : s / 60 / 60 / 24 / 365 = s / 31536000 := by omega
  rw [h3, h4, h5, h2, h1]
  have c1 : (s / 60 < 60) ↔ (s < 3600) := by omega
  have c2 : (s / 3600 < 24) ↔ (s < 86400) := by omega
  simp only [c1, c2]
  by_cases hd : s / 86400 = 1 <;> simp [hd]

/-- C4: `human_time_diff` realizes exactly the bucketed wording of the spec
table — the `"for N <unit>"` buckets with the `"since yesterday"` 1-day
case for non-negative deltas, the mirrored `"in N <unit>"` buckets with
`"tomorrow"` at 1 day for negative deltas, with fixed 7/30/365-day
divisors — including the spec's sample points 45s, 90s, 25h and 3 days in
the future. -/
theorem c4_human_time_diff_buckets :
    (∀ past now : Int, human_time_diff past now = spec_humanize (now - past))
    ∧ human_time_diff 0 45 = "for 45 seconds"
    ∧ human_time_diff 0 90 = "for 1 minute"
    ∧ human_time_diff 0 (25 * 3600) = "since yesterday"
    ∧ human_time_diff (3 * 86400) 0 = "in 3 days" := by
  refine ⟨?_, rfl, rfl, rfl, rfl⟩
  intro past now
  unfold human_time_diff spec_humanize
  by_cases hneg : now - past < 0 <;>
    simp [hneg, human_past_eq_spec, human_future_eq_spec]

theorem truthy_some_ne {s : String} (h : truthy (some s) = true) : s ≠ "" := by
  intro he
  rw [he] at h
  simp only [truthy] at h
  rw [(String.isEmpty_iff "").mpr rfl] at h
  exact Bool.false_ne_true (by simpa using h)

/-- The assign-on-match loop is insensitive to its initial value except as a
fallback: running it from `v` equals running it from `none` and falling back
to `v` when no entry matched. -/
theorem envScan_shift (keys : List String) :
    ∀ (env : List (String × String)) (v : Option String),
      envScan env keys v = (envScan env keys none).elim v some := by
  intro env
  induction env with
  | nil => intro v; rfl
  | cons p env ih =>
    intro v
    unfold envScan at ih ⊢
    simp only [List.foldl_cons]
    by_cases hp : p.1 ∈ keys
    · simp only [if_pos hp]
      cases hres : List.foldl (fun v q => if q.1 ∈ keys then some q.2 else v)
          none env with
      | none =>
        have h1 := ih (some p.2)
        rw [hres] at h1
        simp only [Option.elim] at h1
        rw [h1]
        rfl
      | some x =>
        have h1 := ih (some p.2)
        rw [hres] at h1
        simp only [Option.elim] at h1
        rw [h1]
        rfl
    · simp only [if_neg hp]
      exact ih v

theorem versionStep_false (e : Option (List (String × String)))
    (k : List String) (v : Option String) :
    versionStep e false k v = some v := by
  by_cases h : truthy v = true <;> simp [versionStep, h]

theorem versionStep_truthy (e : Option (List (String × String))) (c : Bool)
    (k : List String) (v : Option String) (h : truthy v = true) :
    versionStep e c k v = some v := by
  simp [versionStep, h]

theorem versionStep_scan (env : List (String × String)) (k : List String)
    (v : Option String) (h : truthy v = false) :
    versionStep (some env) true k v = some (envScan env k v) := by
  simp [versionStep, h]

theorem truthy_none : truthy none = false := rfl

theorem scan_branch_spec (env : List (String × String)) (k : List String)
    (v1 : Option String) (hv1 : truthy v1 = false) :
    ∀ v, envScan env k v1 = v →
      (if truthy (envScan env k none) = true then envScan env k none
        else none).getD "N/A"
        = if truthy v = true then v.getD "" else "N/A" := by
  intro v hv
  rw [envScan_shift] at hv
  cases hscan : envScan env k none with
  | none =>
    rw [hscan] at hv
    simp only [Option.elim] at hv
    subst hv
    simp [hscan, truthy_none, hv1]
  | some y =>
    rw [hscan] at hv
    simp only [Option.elim] at hv
    subst hv
    cases hy : truthy (some y) <;> simp [hscan, hy]

theorem image_steps_spec (env : List (String × String)) (b : String)
    (v1 v img : Option String)
    (hv1 : truthy v1 = false)
    (himg : img = (if b = "php" then envScan env ["PHP_VERSION"] none
       else if b = "nginx" then envScan env ["NGINX_VERSION"] none
       else if b = "python" then envScan env ["PYTHON_VERSION"] none
       else none))
    (h : ((versionStep (some env) (b == "php") ["PHP_VERSION"] v1).bind fun v2 =>
          (versionStep (some env) (b == "nginx") ["NGINX_VERSION"] v2).bind fun v3 =>
          versionStep (some env) (b == "python") ["PYTHON_VERSION"] v3) = some v) :
    (if truthy img = true then img else none).getD "N/A"
      = if truthy v = true then v.getD "" else "N/A" := by
  by_cases h1 : b = "php"
  · subst h1
    have himg2 : img = envScan env ["PHP_VERSION"] none := by rw [himg]; rfl
    rw [show (("php" : String) == "php") = true from rfl,
        show (("php" : String) == "nginx") = false from rfl,
        show (("php" : String) == "python") = false from rfl,
        versionStep_scan _ _ _ hv1] at h
    simp only [Option.some_bind, versionStep_false] at h
    injection h with h
    rw [himg2]
    exact scan_branch_spec env _ v1 hv1 v h
  · by_cases h2 : b = "nginx"
    · subst h2
      have himg2 : img = envScan env ["NGINX_VERSION"] none := by rw [himg]; rfl
      rw [show (("nginx" : String) == "php") = false from rfl,
          show (("nginx" : String) == "nginx") = true from rfl,
          show (("nginx" : String) == "python") = false from rfl] at h
      simp only [versionStep_false, Option.some_bind] at h
      rw [versionStep_scan _ _ _ hv1] at h
      simp only [Option.some_bind, versionStep_false] at h
      injection h with h
      rw [himg2]
      exact scan_branch_spec env _ v1 hv1 v h
    · by_cases h3 : b = "python"
      · subst h3
        have himg2 : img = envScan env ["PYTHON_VERSION"] none := by rw [himg]; rfl
        rw [show (("python" : String) == "php") = false from rfl,
            show (("python" : String) == "nginx") = false from rfl,
            show (("python" : String) == "python") = true from rfl] at h
        simp only [versionStep_false, Option.some_bind] at h
        rw [versionStep_scan _ _ _ hv1] at h
        injection h with h
        rw [himg2]
        exact scan_branch_spec env _ v1 hv1 v h
      · have e1 : (b == "php") = false := beq_eq_false_iff_ne.mpr h1
        have e2 : (b == "nginx") = false := beq_eq_false_iff_ne.mpr h2
        have e3 : (b == "python") = false := beq_eq_false_iff_ne.mpr h3
        have himg2 : img = none := by rw [himg, if_neg h1, if_neg h2, if_neg h3]
        rw [e1, e2, e3] at h
        simp only [versionStep_false, Option.some_bind] at h
        injection h with h
        subst h
        rw [himg2]
        simp [truthy_none, hv1]

theorem get_version_spec :
    ∀ (cont : RawContainer) (v : Option String),
      get_version cont = some v →
      specVersion cont = (if truthy v = true then v.getD "" else "N/A") := by
  intro cont v h
  unfold get_version at h
  cases hla : cont.labels with
  | none => rw [hla] at h; exact Option.noConfusion h
  | some labels =>
  rw [hla] at h
  simp only [Option.some_bind] at h
  cases him : cont.image with
  | none => rw [him] at h; exact Option.noConfusion h
  | some image =>
  rw [him] at h
  simp only [Option.some_bind] at h
  cases hcol : afterFirstColon image with
  | none => rw [hcol] at h; exact Option.noConfusion h
  | some rest =>
  rw [hcol] at h
  simp only [Option.some_bind] at h
  by_cases t0 : truthy (dget labels "org.opencontainers.image.version") = true
  · rw [versionStep_truthy _ _ _ _ t0] at h
    simp only [Option.some_bind] at h
    rw [versionStep_truthy _ _ _ _ t0] at h
    simp only [Option.some_bind] at h
    rw [versionStep_truthy _ _ _ _ t0] at h
    simp only [Option.some_bind] at h
    rw [versionStep_truthy _ _ _ _ t0] at h
    injection h with h
    subst h
    cases hv0 : dget labels "org.opencontainers.image.version" with
    | none => rw [hv0] at t0; simp [truthy] at t0
    | some sv =>
      rw [hv0] at t0
      unfold specVersion firstTruthy labelVersion
      rw [hla]
      simp [hv0, t0]
  · have t0' : truthy (dget labels "org.opencontainers.image.version") = false :=
      Bool.not_eq_true _ ▸ Bool.eq_false_iff.mpr t0
    cases henv : cont.env with
    | none =>
      rw [henv] at h
      simp [versionStep, t0'] at h
    | some env =>
      rw [henv] at h
      rw [versionStep_scan _ _ _ t0'] at h
      simp only [Option.some_bind] at h
      have hshift := envScan_shift version_env_strings env
        (dget labels "org.opencontainers.image.version")
      cases hdb : envScan env version_env_strings none with
      | some x =>
        rw [hdb] at hshift
        simp only [Option.elim] at hshift
        rw [hshift] at h
        by_cases t1 : truthy (some x) = true
        · rw [versionStep_truthy _ _ _ _ t1] at h
          simp only [Option.some_bind] at h
          rw [versionStep_truthy _ _ _ _ t1] at h
          simp only [Option.some_bind] at h
          rw [versionStep_truthy _ _ _ _ t1] at h
          injection h with h
          subst h
          unfold specVersion labelVersion dbEnvVersion
          rw [hla, henv]
          simp [firstTruthy, t0', hdb, t1]
        · have t1' : truthy (some x) = false :=
            Bool.not_eq_true _ ▸ Bool.eq_false_iff.mpr t1
          unfold specVersion labelVersion dbEnvVersion imageSpecificVersion
          rw [hla, henv, him]
          simp only [firstTruthy, Option.getD_some, t0', hdb, t1',
            Bool.false_eq_true, if_false]
          exact image_steps_spec env _ (some x) v _ t1' rfl h
      | none =>
        rw [hdb] at hshift
        simp only [Option.elim] at hshift
        rw [hshift] at h
        unfold specVersion labelVersion dbEnvVersion imageSpecificVersion
        rw [hla, henv, him]
        simp only [firstTruthy, Option.getD_some, t0', hdb, truthy_none,
          Bool.false_eq_true, if_false]
        exact image_steps_spec env _ _ v _ t0' rfl h

/-- C3: the version exposed by a constructed Container is the first
non-empty value of the resolution chain — OCI image-version label, then the
well-known database/cache env variables, then the env variable keyed by the
image's base name — and `"N/A"` exactly when the whole chain yields
nothing; hence it is always a non-empty chain-sourced string or `"N/A"`. -/
theorem c3_version_resolution :
    ∀ (fromiso : String → Option Int) (now : Int) (cont : RawContainer)
      (c : Container),
      Container.init fromiso now cont = some c →
      c.version = specVersion cont ∧ c.version ≠ "" := by
  intro fromiso now cont c h
  unfold Container.init at h
  cases hv : get_version cont with
  | none => rw [hv] at h; exact Option.noConfusion h
  | some v =>
    rw [hv] at h
    injection h with h
    subst h
    have hs := get_version_spec cont v hv
    rw [hs]
    constructor
    · unfold Container.version
      cases v with
      | none => simp [truthy_none]
      | some sv =>
        by_cases he : sv.isEmpty = true
        · have ht : truthy (some sv) = false := by simp [truthy, he]
          simp [he, ht]
        · have ht : truthy (some sv) = true := by simp [truthy, he]
          simp [he, ht]
    · unfold Container.version
      cases v with
      | none => simp
      | some sv =>
        by_cases he : sv.isEmpty = true
        · simp [he]
        · simp [he]
          exact fun hh => he (by rw [hh]; rfl)

def c3record : RawContainer :=
  { id := some "c3", name := some "web", host_id := some "h3",
    image := some "nginx:1.25", state := some "running",
    labels := some [("org.opencontainers.image.version", "1.25.3")],
    env := some [] }

theorem c3_version_resolution_witness :
    ∃ c, Container.init (fun _ => none) 0 c3record = some c
      ∧ c.version = specVersion c3record ∧ c.version ≠ "" :=
  ⟨((Container.init (fun _ => none) 0 c3record).getD c9container),
    rfl, c3_version_resolution (fun _ => none) 0 c3record _ rfl⟩

theorem init_default_status (fromiso : String → Option Int) (now : Int)
    (r : RawContainer) (c : Container)
    (h : Container.init fromiso now r = some c) :
    c.update_status = defaultStatus := by
  unfold Container.init at h
  cases hv : get_version r with
  | none => rw [hv] at h; exact Option.noConfusion h
  | some v => rw [hv] at h; injection h with h; subst h; rfl

theorem setUpdateStatus_container_id (fromiso : String → Option Int)
    (now : Int) (c : Container) (p : RawStatus) (c' : Container)
    (h : Container.setUpdateStatus fromiso now c p = some c') :
    c'.container_id = c.container_id := by
  unfold Container.setUpdateStatus at h
  cases hcv : p.current_version with
  | none => rw [hcv] at h; exact Option.noConfusion h
  | some cv => rw [hcv] at h; injection h with h; subst h; rfl

theorem gcs_loop_fetches :
    ∀ (fromiso : String → Option Int) (now : Int)
      (detail : Option String → Option String → RawStatus)
      (keys : List (Option String)) (args : Args) (upd : List String)
      (rs : List RawContainer) (added : List Container) (log : List String),
      gcs_loop fromiso now detail keys args upd rs = some (added, log) →
      ∃ ws, workingSet fromiso now keys args rs = some ws
        ∧ log = (ws.filter (fun c => upd.contains c.container_id)).map
            (fun c => c.container_id)
        ∧ (∀ c ∈ ws, upd.contains c.container_id = false →
            c.update_status = defaultStatus)
        ∧ (∀ c ∈ added, upd.contains c.container_id = false →
            c.update_status = defaultStatus) := by
  intro fromiso now detail keys args upd rs
  induction rs with
  | nil =>
    intro added log h
    unfold gcs_loop at h
    simp only [Option.some_inj, Prod.mk.injEq] at h
    obtain ⟨rfl, rfl⟩ := h
    refine ⟨[], rfl, rfl, ?_, ?_⟩ <;> intro c hc <;> cases hc
  | cons r rest ih =>
    intro added log h
    unfold gcs_loop at h
    cases hinit : Container.init fromiso now r with
    | none => rw [hinit] at h; exact Option.noConfusion h
    | some c =>
    rw [hinit] at h
    simp only [Option.some_bind] at h
    by_cases hm : matchedHere keys args c = true
    · rw [if_pos hm] at h
      by_cases hu : upd.contains c.container_id = true
      · rw [if_pos hu] at h
        cases hset : Container.setUpdateStatus fromiso now c
            (detail c.host_id c.id) with
        | none => rw [hset] at h; exact Option.noConfusion h
        | some c' =>
        rw [hset] at h
        simp only [Option.some_bind] at h
        cases hrec : gcs_loop fromiso now detail keys args upd rest with
        | none => rw [hrec] at h; exact Option.noConfusion h
        | some pr =>
        obtain ⟨cs, log'⟩ := pr
        rw [hrec] at h
        simp only [Option.some_bind] at h
        obtain ⟨ws, hws, hlog, hwsd, hadds⟩ := ih cs log' hrec
        have hu2 : c.container_id ∈ upd := by simpa using hu
        have hwork : workingSet fromiso now keys args (r :: rest)
            = some (c :: ws) := by
          unfold workingSet
          rw [hinit, hws]
          simp only [Option.some_bind, Option.some_inj]
          rw [if_pos hm]
        by_cases hskip : (args.updates_only && !c'.update_available) = true
        · rw [if_pos hskip] at h
          simp only [Option.some_inj, Prod.mk.injEq] at h
          obtain ⟨rfl, rfl⟩ := h
          refine ⟨c :: ws, hwork, ?_, ?_, hadds⟩
          · simp [List.filter_cons, hu2, hlog]
          · intro x hx hxu
            cases hx with
            | head => rw [hxu] at hu; exact Bool.noConfusion hu
            | tail _ hx2 => exact hwsd x hx2 hxu
        · rw [if_neg hskip] at h
          simp only [Option.some_inj, Prod.mk.injEq] at h
          obtain ⟨rfl, rfl⟩ := h
          refine ⟨c :: ws, hwork, ?_, ?_, ?_⟩
          · simp [List.filter_cons, hu2, hlog]
          · intro x hx hxu
            cases hx with
            | head => rw [hxu] at hu; exact Bool.noConfusion hu
            | tail _ hx2 => exact hwsd x hx2 hxu
          · intro x hx hxu
            cases hx with
            | head =>
              rw [setUpdateStatus_container_id fromiso now c _ c' hset] at hxu
              rw [hxu] at hu
              exact Bool.noConfusion hu
            | tail _ hx2 => exact hadds x hx2 hxu
      · have hu2 : c.container_id ∉ upd := by
          intro hx
          exact hu (by simpa using hx)
        rw [if_neg hu] at h
        by_cases hsk2 : (args.updates_only && !c.update_available) = true
        · rw [if_pos hsk2] at h
          obtain ⟨ws, hws, hlog, hwsd, hadds⟩ := ih added log h
          refine ⟨c :: ws, ?_, ?_, ?_, hadds⟩
          · unfold workingSet
            rw [hinit, hws]
            simp only [Option.some_bind, Option.some_inj]
            rw [if_pos hm]
          · simp [List.filter_cons, hu2, hlog]
          · intro x hx hxu
            cases hx with
            | head => exact init_default_status fromiso now r c hinit
            | tail _ hx2 => exact hwsd x hx2 hxu
        · rw [if_neg hsk2] at h
          cases hrec : gcs_loop fromiso now detail keys args upd rest with
          | none => rw [hrec] at h; exact Option.noConfusion h
          | some pr =>
          obtain ⟨cs, log'⟩ := pr
          rw [hrec] at h
          simp only [Option.some_bind, Option.some_inj, Prod.mk.injEq] at h
          obtain ⟨rfl, rfl⟩ := h
          obtain ⟨ws, hws, hlog, hwsd, hadds⟩ := ih cs log' hrec
          refine ⟨c :: ws, ?_, ?_, ?_, ?_⟩
          · unfold workingSet
            rw [hinit, hws]
            simp only [Option.some_bind, Option.some_inj]
            rw [if_pos hm]
          · simp [List.filter_cons, hu2, hlog]
          · intro x hx hxu
            cases hx with
            | head => exact init_default_status fromiso now r c hinit
            | tail _ hx2 => exact hwsd x hx2 hxu
          · intro x hx hxu
            cases hx with
            | head => exact init_default_status fromiso now r c hinit
            | tail _ hx2 => exact hadds x hx2 hxu
    · rw [if_neg hm] at h
      obtain ⟨ws, hws, hlog, hwsd, hadds⟩ := ih added log h
      refine ⟨ws, ?_, hlog, hwsd, hadds⟩
      unfold workingSet
      rw [hinit, hws]
      simp only [Option.some_bind, Option.some_inj]
      rw [if_neg hm]

/-- C1: over any run of `get_container_status` that completes, the detail
fetches issued are exactly one per working-set container whose composite id
is in `containers_with_updates` (in iteration order) — so a flagged
container gets exactly one fetch, an unflagged one gets zero — and every
unflagged container, in the working set and in the reconciled result alike,
still carries the default `{update_available := false}` status. -/
theorem c1_selective_update_fetch :
    ∀ (fromiso : String → Option Int) (now : Int) (hostsData : List RawHost)
      (summary : Summary) (containersData : List RawContainer)
      (detail : Option String → Option String → RawStatus) (args : Args)
      (added : List Container) (log : List String),
      get_container_status fromiso now hostsData summary containersData detail
          args = some (added, log) →
      ∃ ws, workingSet fromiso now (hostKeys hostsData args) args
          containersData = some ws
        ∧ log = (ws.filter (fun c =>
            (summary.containers_with_updates.getD []).contains
              c.container_id)).map (fun c => c.container_id)
        ∧ (∀ c ∈ ws, (summary.containers_with_updates.getD []).contains
              c.container_id = false →
            c.update_status = defaultStatus)
        ∧ (∀ c ∈ added, (summary.containers_with_updates.getD []).contains
              c.container_id = false →
            c.update_status = defaultStatus) :=
  fun fromiso now hostsData summary containersData detail args added log h =>
    gcs_loop_fetches fromiso now detail (hostKeys hostsData args) args
      (summary.containers_with_updates.getD []) containersData added log h

def c1fromiso : String → Option Int := fun _ => none

def c1hosts : List RawHost := [{ id := some "h1", name := some "A" }]

def c1sum : Summary := { containers_with_updates := some ["h1:c1"] }

def c1conts : List RawContainer :=
  [{ id := some "c1", name := some "web", host_id := some "h1",
     image := some "nginx:1.2", state := some "running",
     labels := some [("org.opencontainers.image.version", "1.2")],
     env := some [] },
   { id := some "c2", name := some "db", host_id := some "h1",
     image := some "postgres:16", state := some "running",
     labels := some [("org.opencontainers.image.version", "16")],
     env := some [] }]

def c1detail : Option String → Option String → RawStatus := fun _ _ =>
  { update_available := true, current_version := some none,
    latest_version := some (some "1.3"), last_checked_at := none }

def c1args : Args := {}

def c1res : Option (List Container × List String) :=
  get_container_status c1fromiso 0 c1hosts c1sum c1conts c1detail c1args

def c1added : List Container := (c1res.getD ([], [])).1

def c1log : List String := (c1res.getD ([], [])).2

theorem c1_selective_update_fetch_witness :
    ∃ ws, workingSet c1fromiso 0 (hostKeys c1hosts c1args) c1args c1conts
        = some ws
      ∧ c1log = (ws.filter (fun c =>
          (c1sum.containers_with_updates.getD []).contains
            c.container_id)).map (fun c => c.container_id)
      ∧ (∀ c ∈ ws, (c1sum.containers_with_updates.getD []).contains
            c.container_id = false →
          c.update_status = defaultStatus)
      ∧ (∀ c ∈ c1added, (c1sum.containers_with_updates.getD []).contains
            c.container_id = false →
          c.update_status = defaultStatus) :=
  c1_selective_update_fetch c1fromiso 0 c1hosts c1sum c1conts c1detail c1args
    c1added c1log rfl

end DockmonCLI
